import Mathlib

/-!
# Verification of the spotify-backup API access layer

A shallow embedding of `spotify-backup.py`: the retrying HTTP client
(`SpotifyAPI.get`), the paginator (`SpotifyAPI.list`), the local OAuth capture
server (`_AuthorizationHandler.do_GET` and `SpotifyAPI.authorize`), the
bounded-concurrency playlist-track coordinator (`load_playlist_tracks` and the
batch loop in `main`), and the text-format writer in `main`.

Effects (network responses, raised exceptions, sleeps, log lines) are made
explicit: the network is a parameter giving each attempt's outcome, and a run
produces a result together with the list of sleep/log events it performs.
-/

/-- Outcome of one HTTP attempt inside `SpotifyAPI.get`, mirroring the
`try/except` arms of `spotify-backup.py` lines 64–92: a 2xx response with a
valid JSON body, an `urllib.error.HTTPError` with a status code, an
`urllib.error.URLError`, a `json.JSONDecodeError`, or any other exception. -/
inductive AttemptOutcome (α : Type) where
  | success (body : α)
  | httpError (code : Nat) (reason : String)
  | netError (reason : String)
  | jsonError (err : String)
  | otherError (err : String)
deriving DecidableEq, Repr

/-- An attempt outcome on which the `get` loop proceeds to the next attempt:
everything except a success and except HTTP 401 (which calls `sys.exit(1)`). -/
def AttemptOutcome.retryable {α : Type} : AttemptOutcome α → Bool
  | .success _ => false
  | .httpError code _ => code ≠ 401
  | .netError _ => true
  | .jsonError _ => true
  | .otherError _ => true

/-- Observable events of a `SpotifyAPI.get` run: each constructor is one
`time.sleep` or `log_message` call in lines 72–97, carrying exactly the data
the corresponding message interpolates. -/
inductive Event where
  | sleep (seconds : Nat)
  | logAuthFailed
  | logRateLimited
  | logHttpError (code : Nat) (reason : String) (url : String)
  | logNetError (reason : String) (url : String)
  | logJsonError (url : String) (err : String)
  | logOtherError (err : String) (url : String)
  | logRetry (nextAttempt : Nat) (tries : Nat)
  | logFailedAfter (tries : Nat) (url : String)
deriving DecidableEq, Repr

/-- Result of a `SpotifyAPI.get` call: the decoded body, or process
termination via `sys.exit(1)` — either from the 401 branch (line 73) or after
the retry loop is exhausted (line 98). -/
inductive GetResult (α : Type) where
  | ok (body : α)
  | exitAuth
  | exitExhausted
deriving DecidableEq, Repr

namespace SpotifyAPI

/-- `if attempt < tries - 1: log_message('Retrying... (attempt {attempt+2}/{tries})')`
(line 94–95), shared by every non-success arm of the loop body. -/
def retryLog (tries attempt : Nat) : List Event :=
  if attempt < tries - 1 then [.logRetry (attempt + 2) tries] else []

/-- `if attempt < tries - 1: time.sleep(2 * (attempt + 1))` — the backoff of
the generic-HTTP-error and network-error arms (lines 79–80 and 83–84). -/
def linBackoff (tries attempt : Nat) : List Event :=
  if attempt < tries - 1 then [.sleep (2 * (attempt + 1))] else []

/-- `if attempt < tries - 1: time.sleep(2)` — the constant backoff of the
JSON-decode-error and unexpected-error arms (lines 87–88 and 91–92). -/
def constBackoff (tries attempt : Nat) : List Event :=
  if attempt < tries - 1 then [.sleep 2] else []

/-- The retry loop of `SpotifyAPI.get` (lines 63–98). `attempt` is the
0-indexed loop variable; `remaining` is the number of loop iterations left
(`tries - attempt`), making the recursion structural. When the loop runs out,
the code logs the terminal diagnostic and calls `sys.exit(1)`. -/
def getAux {α : Type} (outcome : Nat → AttemptOutcome α) (tries : Nat)
    (url : String) : Nat → Nat → GetResult α × List Event
  | _, 0 => (.exitExhausted, [.logFailedAfter tries url])
  | attempt, r + 1 =>
    match outcome attempt with
    | .success b => (.ok b, [])
    | .httpError code reason =>
      if code = 401 then
        (.exitAuth, [.logAuthFailed])
      else if code = 429 then
        let rest := getAux outcome tries url (attempt + 1) r
        (rest.1, .logRateLimited :: .sleep (10 * (attempt + 1)) ::
          (retryLog tries attempt ++ rest.2))
      else
        let rest := getAux outcome tries url (attempt + 1) r
        (rest.1, .logHttpError code reason url ::
          (linBackoff tries attempt ++ retryLog tries attempt ++ rest.2))
    | .netError reason =>
      let rest := getAux outcome tries url (attempt + 1) r
      (rest.1, .logNetError reason url ::
        (linBackoff tries attempt ++ retryLog tries attempt ++ rest.2))
    | .jsonError e =>
      let rest := getAux outcome tries url (attempt + 1) r
      (rest.1, .logJsonError url e ::
        (constBackoff tries attempt ++ retryLog tries attempt ++ rest.2))
    | .otherError e =>
      let rest := getAux outcome tries url (attempt + 1) r
      (rest.1, .logOtherError e url ::
        (constBackoff tries attempt ++ retryLog tries attempt ++ rest.2))

/-- The `get` loop resumed at a given attempt index. -/
def getFrom {α : Type} (outcome : Nat → AttemptOutcome α) (tries : Nat)
    (url : String) (attempt : Nat) : GetResult α × List Event :=
  getAux outcome tries url attempt (tries - attempt)

/-- `SpotifyAPI.get(url, params, tries)` (lines 55–98): run the retry loop
from attempt 0. The network is modelled by `outcome`, giving each attempt's
result for the (fixed) constructed URL. -/
def get {α : Type} (outcome : Nat → AttemptOutcome α) (tries : Nat)
    (url : String) : GetResult α × List Event :=
  getFrom outcome tries url 0

/-- One page of a paged Spotify resource: `{items: [...], next: url|null,
total: int}`. -/
structure Page (α : Type) where
  items : List α
  next : Option String
  total : Nat
deriving DecidableEq, Repr

/-- The pagination loop of `SpotifyAPI.list` (lines 107–113): while the
current response has a `next` URL, fetch it (with no params) and append its
items. `fetch` abstracts a succeeding `self.get`; `fuel` bounds the number of
loop iterations, `none` modelling the unbounded loop not terminating. The
second component counts the `get` calls made so far. -/
def listAux {α : Type} (fetch : String → List (String × String) → Page α) :
    Nat → Page α → List α → Nat → Option (List α × Nat)
  | fuel, response, items, count =>
    match response.next with
    | none => some (items, count)
    | some u =>
      match fuel with
      | 0 => none
      | fuel' + 1 =>
        let response' := fetch u []
        listAux fetch fuel' response' (items ++ response'.items) (count + 1)

/-- `SpotifyAPI.list(url, params)` (lines 102–114): fetch the first page with
the caller's params, start from its items, then walk the `next` chain. -/
def list {α : Type} (fetch : String → List (String × String) → Page α)
    (fuel : Nat) (url : String) (params : List (String × String)) :
    Option (List α × Nat) :=
  let response := fetch url params
  listAux fetch fuel response response.items 1

/-- `fetch` serves the chain of pages `rest` starting from the page `resp`:
`resp.next` names a URL at which `fetch`, queried with no params, returns the
first page of `rest`, and so on; the last page's `next` is absent. -/
def chainFrom {α : Type} (fetch : String → List (String × String) → Page α) :
    Page α → List (Page α) → Prop
  | resp, [] => resp.next = none
  | resp, p :: rest =>
    ∃ u, resp.next = some u ∧ fetch u [] = p ∧ chainFrom fetch p rest

end SpotifyAPI

/-! ## The local OAuth capture server

`SpotifyAPI._AuthorizationHandler.do_GET` (lines 152–177) and the
`handle_request` loop of `SpotifyAPI.authorize` (lines 129–137). Paths are
lists of characters; the regex `access_token=([^&]*)` of line 168 is embedded
as a left-to-right scan for its literal prefix. -/

/-- The literal part of the pattern `access_token=([^&]*)` (line 168). -/
def accessTokenPat : List Char := "access_token=".data

/-- `re.search('access_token=([^&]*)', path)`: find the leftmost occurrence
of `access_token=` and capture the following characters up to the next `&`
(or the end). The group `[^&]*` always matches, possibly emptily, so the
search fails exactly when the literal substring is absent. -/
def scanToken : List Char → Option (List Char)
  | [] => none
  | c :: rest =>
    if accessTokenPat.isPrefixOf (c :: rest) then
      some (((c :: rest).drop accessTokenPat.length).takeWhile fun ch => ch ≠ '&')
    else scanToken rest

/-- A response written by `do_GET`: the 200 page carrying the
fragment-to-query redirect script (line 159), the 200 "Thanks! You may now
close this window." page (line 166), `send_error(400)` (line 170), or
`send_error(404)` (line 177). -/
inductive HttpResponse where
  | okRedirectScript
  | okTokenPage
  | err400
  | err404
deriving DecidableEq, Repr

/-- `_AuthorizationHandler.do_GET` (lines 152–177): the responses written, in
order, and the captured token when the handler raises `_Authorization`
(line 174). Note the 200 token page is written before the pattern is checked,
so a `/token?` request without `access_token=` answers 200 then 400. -/
def do_GET (path : List Char) : List HttpResponse × Option (List Char) :=
  if ("/redirect".data).isPrefixOf path then
    ([.okRedirectScript], none)
  else if ("/token?".data).isPrefixOf path then
    match scanToken path with
    | none => ([.okTokenPage, .err400], none)
    | some tok => ([.okTokenPage], some tok)
  else
    ([.err404], none)

/-- The capture server's state machine: `listening`, or the terminal
`captured` reached when `do_GET` raises `_Authorization` with the token. -/
inductive ServerState where
  | listening
  | captured (token : List Char)
deriving DecidableEq, Repr

/-- One `handle_request` iteration as a state transition. After capture the
loop has been exited and the server closed, so a captured server handles
nothing. -/
def serverStep : ServerState → List Char → ServerState × List HttpResponse
  | .captured t, _ => (.captured t, [])
  | .listening, path =>
    match do_GET path with
    | (resp, none) => (.listening, resp)
    | (resp, some tok) => (.captured tok, resp)

/-- An event seen by the `while True: server.handle_request()` loop of
`authorize`: an inbound request, or an exogenous interruption of the calling
context (e.g. `KeyboardInterrupt`) arriving before the next request. -/
inductive LoopEvent where
  | request (path : List Char)
  | interrupt
deriving DecidableEq, Repr

/-- How the `authorize` loop exited: the `_Authorization` exception carrying
the token, or a propagating interruption. -/
inductive AuthExit where
  | captured (token : List Char)
  | interrupted
deriving DecidableEq, Repr

/-- Outcome of `SpotifyAPI.authorize`'s server phase: how the loop exited and
whether `server.server_close()` ran. The `finally` clause of lines 131–137
runs on every exit path, so `socketClosed` is true whenever the loop exits. -/
structure AuthResult where
  exitKind : AuthExit
  socketClosed : Bool
deriving DecidableEq, Repr

/-- The `try: while True: server.handle_request() / except _Authorization /
finally: server.server_close()` loop (lines 131–137) over a finite event
stream. `none` means the stream ran out with the server still blocked
listening (the loop has not exited, so the socket is still held). -/
def authorize : List LoopEvent → Option AuthResult
  | [] => none
  | .interrupt :: _ => some ⟨.interrupted, true⟩
  | .request path :: rest =>
    match do_GET path with
    | (_, some tok) => some ⟨.captured tok, true⟩
    | (_, none) => authorize rest

/-! ## The concurrent playlist-track coordinator

`load_playlist_tracks` (lines 188–196) and the thread-pool batch in `main`
(lines 320–330). A playlist's `tracks` field is either the paged-reference
stub it arrives with or the materialized track list. The HTTP/pagination
layer below each resolution is abstracted by a `resolver` giving, per
playlist, either its track items, a caught error, or the fatal-auth
`sys.exit` (a `SystemExit` is not an `Exception`, so the `except Exception`
of line 194 does not catch it). -/

/-- The `tracks` field of a playlist: the initial stub
`{'href': ..., 'total': ...}` or the resolved list of track items. -/
inductive Tracks where
  | stub (href : String) (total : Nat)
  | resolved (items : List String)
deriving DecidableEq, Repr

/-- A playlist record, as far as the coordinator touches it. -/
structure Playlist where
  name : String
  tracks : Tracks
deriving DecidableEq, Repr

/-- Outcome of `spotify.list(playlist['tracks']['href'], {'limit': 100})`
for one playlist: the items, an exception caught by `except Exception`
(line 194), or the process-fatal 401 path (`sys.exit(1)` raises `SystemExit`,
which `except Exception` does not catch). -/
inductive ResolveOutcome where
  | ok (items : List String)
  | err (msg : String)
  | fatalAuth
deriving DecidableEq, Repr

/-- Whether an outcome is a caught (logged, non-fatal) resolution failure. -/
def ResolveOutcome.isErr : ResolveOutcome → Bool
  | .err _ => true
  | _ => false

/-- `load_playlist_tracks(spotify, playlist)` (lines 188–196): on success the
playlist's `tracks` stub is replaced by the resolved list; a caught exception
logs an error line and returns the playlist unchanged; `SystemExit` from the
auth-failure path propagates (`none`), killing the process. -/
def load_playlist_tracks (resolver : Playlist → ResolveOutcome)
    (p : Playlist) : Option (Playlist × List String) :=
  match resolver p with
  | .ok items => some ({ p with tracks := .resolved items }, [])
  | .err m => some (p, ["Error loading playlist " ++ p.name ++ ": " ++ m])
  | .fatalAuth => none

/-- The playlist a single resolution leaves behind: resolved on success,
untouched (stub kept) on a caught failure. -/
def resolve1 (resolver : Playlist → ResolveOutcome) (p : Playlist) : Playlist :=
  match resolver p with
  | .ok items => { p with tracks := .resolved items }
  | _ => p

/-- The batch of lines 320–330, one completion at a time: `order` is the
order in which the worker pool finishes the submitted playlists (indices into
`ps`); each completion writes its result back at the playlist's original
index (the source mutates the playlist dict in place, so `playlist_data`
keeps its order). `logs` collects the error lines in completion order. A
`fatalAuth` anywhere terminates the process (`none`). -/
def runBatchAux (resolver : Playlist → ResolveOutcome) (ps : List Playlist) :
    List Nat → List Playlist → List String → Option (List Playlist × List String)
  | [], acc, logs => some (acc, logs)
  | i :: rest, acc, logs =>
    match ps.get? i with
    | none => runBatchAux resolver ps rest acc logs
    | some p =>
      match load_playlist_tracks resolver p with
      | none => none
      | some (p2, l) => runBatchAux resolver ps rest (acc.set i p2) (logs ++ l)

/-- Run the whole batch: every playlist submitted, results collected as they
complete, final sequence read off in original index order. -/
def runBatch (resolver : Playlist → ResolveOutcome) (ps : List Playlist)
    (order : List Nat) : Option (List Playlist × List String) :=
  runBatchAux resolver ps order ps []

/-! ## The text-format writer

The tab-separated branch of `main` (lines 360–405). Each constructor of
`TxtLine` is one `f.write` call, carrying the data its format string
interpolates; the nesting of the `if` statements is kept exactly as in the
source: the Liked Albums block, and inside it the Top Artists and Top Tracks
blocks, are guarded by `if len(liked_albums) > 0`. -/

/-- A track record as the writer reads it (`track['track']`), `none` when
`track['track'] is None` and the writer skips it (lines 365–366). -/
structure Track where
  uri : String
  name : String
  artists : List String
  album : String
  releaseDate : String
deriving DecidableEq, Repr

/-- A playlist as the writer sees it: a name and the track entries. -/
structure WPlaylist where
  name : String
  tracks : List (Option Track)
deriving DecidableEq, Repr

/-- A liked-album record (`album['album']`). -/
structure Album where
  uri : String
  name : String
  artists : List String
  releaseDate : String
deriving DecidableEq, Repr

/-- A top-artist record. -/
structure Artist where
  name : String
  genres : List String
  followers : Nat
  uri : String
deriving DecidableEq, Repr

/-- A top-track record. -/
structure TopTrack where
  name : String
  artists : List String
  album : String
  uri : String
  releaseDate : String
deriving DecidableEq, Repr

/-- One line written by the text-format branch; each constructor corresponds
to one `f.write` in lines 361–405. -/
inductive TxtLine where
  | playlistsHeader
  | playlistName (name : String)
  | trackLine (name artists album uri releaseDate : String)
  | blank
  | likedAlbumsHeader
  | albumLine (name artists uri releaseDate : String)
  | topArtistsHeader (timeRange : String)
  | topArtistLine (idx : Nat) (name genres followers uri : String)
  | topTracksHeader (timeRange : String)
  | topTrackLine (idx : Nat) (name artists album uri releaseDate : String)
deriving DecidableEq, Repr

/-- Whether a line is one of the three section headers nested inside the
`if len(liked_albums) > 0` branch. -/
def TxtLine.isNestedSectionHeader : TxtLine → Bool
  | .likedAlbumsHeader => true
  | .topArtistsHeader _ => true
  | .topTracksHeader _ => true
  | _ => false

/-- Lines 362–374: the playlist name, one line per non-null track, then a
blank separator. -/
def playlistLines (p : WPlaylist) : List TxtLine :=
  TxtLine.playlistName p.name ::
    (p.tracks.filterMap fun t => t.map fun tr =>
      TxtLine.trackLine tr.name (String.intercalate ", " tr.artists)
        tr.album tr.uri tr.releaseDate) ++ [TxtLine.blank]

/-- The tab-separated writer (lines 360–405): the Playlists section always;
then, only when `len(liked_albums) > 0`, the Liked Albums section and —
nested inside that same branch — the Top Artists and Top Tracks sections,
each only when non-empty, with items enumerated from 1. -/
def writeTxt (playlists : List WPlaylist) (likedAlbums : List Album)
    (topArtists : List Artist) (topTracks : List TopTrack)
    (timeRange : String) : List TxtLine :=
  TxtLine.playlistsHeader :: (playlists.map playlistLines).flatten ++
    (if likedAlbums.length > 0 then
      TxtLine.likedAlbumsHeader ::
        (likedAlbums.map fun a =>
          TxtLine.albumLine a.name (String.intercalate ", " a.artists)
            a.uri a.releaseDate) ++
        (if topArtists.length > 0 then
          TxtLine.topArtistsHeader timeRange ::
            topArtists.enum.map fun ia =>
              TxtLine.topArtistLine (ia.1 + 1) ia.2.name
                (String.intercalate ", " ia.2.genres)
                (toString ia.2.followers) ia.2.uri
        else []) ++
        (if topTracks.length > 0 then
          TxtLine.topTracksHeader timeRange ::
            topTracks.enum.map fun it =>
              TxtLine.topTrackLine (it.1 + 1) it.2.name
                (String.intercalate ", " it.2.artists)
                it.2.album it.2.uri it.2.releaseDate
        else [])
    else [])

/-! ## Concrete fixtures used to instantiate the theorems -/

/-- First page of a two-page sample resource. -/
def pageA : SpotifyAPI.Page Nat := ⟨[1, 2], some "u1", 3⟩

/-- Second (terminal) page of the two-page sample resource. -/
def pageB : SpotifyAPI.Page Nat := ⟨[3], none, 3⟩

/-- A sample server for the two-page resource: first page at `u0`, second at
the `next` URL `u1`. -/
def twoPageFetch : String → List (String × String) → SpotifyAPI.Page Nat :=
  fun u _ => if u = "u0" then pageA else if u = "u1" then pageB else ⟨[], none, 0⟩

/-- A sample single-page resource: `next` absent already on the first page. -/
def onePageFetch : String → List (String × String) → SpotifyAPI.Page Nat :=
  fun _ _ => ⟨[9], none, 1⟩

/-- A sample track resolver that fails (with a caught error) exactly on the
playlist named `B`. -/
def sampleResolver : Playlist → ResolveOutcome :=
  fun p => if p.name = "B" then .err "boom" else .ok ["t1"]

/-- Three sample stub playlists. -/
def samplePlaylists : List Playlist :=
  [⟨"A", .stub "hA" 1⟩, ⟨"B", .stub "hB" 2⟩, ⟨"C", .stub "hC" 3⟩]

/-! ## Theorems -/

/-- Walking a chain of pages accumulates every page's items, in order, one
`get` per page. -/
theorem SpotifyAPI.listAux_chain {α : Type}
    (fetch : String → List (String × String) → SpotifyAPI.Page α) :
    ∀ (rest : List (SpotifyAPI.Page α)) (resp : SpotifyAPI.Page α)
      (acc : List α) (count fuel : Nat),
      SpotifyAPI.chainFrom fetch resp rest → rest.length ≤ fuel →
      SpotifyAPI.listAux fetch fuel resp acc count =
        some (acc ++ (rest.map SpotifyAPI.Page.items).flatten, count + rest.length) := by
  intro rest
  induction rest with
  | nil =>
    intro resp acc count fuel hch _
    unfold SpotifyAPI.chainFrom at hch
    rw [SpotifyAPI.listAux, hch]
    simp
  | cons p rest ih =>
    intro resp acc count fuel hch hf
    obtain ⟨u, hnext, hfetch, hch'⟩ := hch
    cases fuel with
    | zero => simp at hf
    | succ f =>
      rw [SpotifyAPI.listAux, hnext]
      simp only [hfetch]
      rw [ih p (acc ++ p.items) (count + 1) f hch' (by simpa using hf)]
      simp [List.append_assoc]
      omega

/-- C1: for every paginated resource of total length L split across P pages,
`list(url, params)` returns exactly the concatenation of the pages' items in
original page order (hence exactly L items), making exactly P `get` calls:
the first with the caller's url and params, each subsequent one on the
previous response's `next` URL with no additional params (`chainFrom`
constrains `fetch` only at empty params), terminating when `next` is absent.
With `rest = []` (first page has no `next`) the result is that page's items
with a `get` count of 1, i.e. no second fetch. -/
theorem SpotifyAPI.list_paginates_in_order {α : Type}
    (fetch : String → List (String × String) → SpotifyAPI.Page α)
    (url : String) (params : List (String × String))
    (firstPage : SpotifyAPI.Page α) (rest : List (SpotifyAPI.Page α)) (fuel : Nat)
    (hfirst : fetch url params = firstPage)
    (hchain : SpotifyAPI.chainFrom fetch firstPage rest)
    (hfuel : rest.length ≤ fuel) :
    SpotifyAPI.list fetch fuel url params =
      some (firstPage.items ++ (rest.map SpotifyAPI.Page.items).flatten,
        1 + rest.length) := by
  unfold SpotifyAPI.list
  rw [hfirst]
  exact SpotifyAPI.listAux_chain fetch rest firstPage firstPage.items 1 fuel hchain hfuel

/-- Witness for C1: the two-page sample resource yields `[1, 2, 3]` in 2
fetches, and the single-page sample yields its items in 1 fetch. -/
theorem SpotifyAPI.list_paginates_in_order_witness :
    SpotifyAPI.list twoPageFetch 5 "u0" [("limit", "50")] = some ([1, 2, 3], 2) ∧
    SpotifyAPI.list onePageFetch 5 "s" [] = some ([9], 1) := by
  constructor
  · have h := SpotifyAPI.list_paginates_in_order twoPageFetch "u0" [("limit", "50")]
      pageA [pageB] 5 (by decide)
      ⟨"u1", by decide, by decide, by simp [SpotifyAPI.chainFrom, pageB]⟩ (by decide)
    simpa [pageA, pageB] using h
  · have h := SpotifyAPI.list_paginates_in_order onePageFetch "s" []
      ⟨[9], none, 1⟩ [] 5 rfl (by simp [SpotifyAPI.chainFrom]) (by decide)
    simpa using h

/-- Resuming the loop past its last attempt hits the terminal diagnostic and
`sys.exit(1)`. -/
theorem SpotifyAPI.getFrom_exhausted {α : Type} (outcome : Nat → AttemptOutcome α)
    (tries : Nat) (url : String) (attempt : Nat) (h : tries ≤ attempt) :
    SpotifyAPI.getFrom outcome tries url attempt =
      (.exitExhausted, [.logFailedAfter tries url]) := by
  unfold SpotifyAPI.getFrom
  have h1 : tries - attempt = 0 := by omega
  rw [h1, SpotifyAPI.getAux]

/-- A successful attempt returns its body at once, with no events. -/
theorem SpotifyAPI.getFrom_success {α : Type} (outcome : Nat → AttemptOutcome α)
    (tries : Nat) (url : String) (attempt : Nat) (b : α)
    (h : attempt < tries) (ho : outcome attempt = .success b) :
    SpotifyAPI.getFrom outcome tries url attempt = (.ok b, []) := by
  unfold SpotifyAPI.getFrom
  have h1 : tries - attempt = (tries - (attempt + 1)) + 1 := by omega
  rw [h1, SpotifyAPI.getAux, ho]

/-- A 401 attempt logs the authentication failure and exits the process. -/
theorem SpotifyAPI.getFrom_401 {α : Type} (outcome : Nat → AttemptOutcome α)
    (tries : Nat) (url : String) (attempt : Nat) (reason : String)
    (h : attempt < tries) (ho : outcome attempt = .httpError 401 reason) :
    SpotifyAPI.getFrom outcome tries url attempt =
      (.exitAuth, [.logAuthFailed]) := by
  unfold SpotifyAPI.getFrom
  have h1 : tries - attempt = (tries - (attempt + 1)) + 1 := by omega
  rw [h1, SpotifyAPI.getAux, ho]
  simp

/-- A 429 attempt logs, sleeps `10 * (attempt + 1)` unconditionally, logs the
retry notice when another attempt remains, and continues with the next
attempt. -/
theorem SpotifyAPI.getFrom_429 {α : Type} (outcome : Nat → AttemptOutcome α)
    (tries : Nat) (url : String) (attempt : Nat) (reason : String)
    (h : attempt < tries) (ho : outcome attempt = .httpError 429 reason) :
    SpotifyAPI.getFrom outcome tries url attempt =
      ((SpotifyAPI.getFrom outcome tries url (attempt + 1)).1,
        .logRateLimited :: .sleep (10 * (attempt + 1)) ::
          (SpotifyAPI.retryLog tries attempt ++
            (SpotifyAPI.getFrom outcome tries url (attempt + 1)).2)) := by
  unfold SpotifyAPI.getFrom
  have h1 : tries - attempt = (tries - (attempt + 1)) + 1 := by omega
  rw [h1, SpotifyAPI.getAux, ho]
  simp

/-- An HTTP error other than 401/429 logs, sleeps `2 * (attempt + 1)` when
another attempt remains, and continues with the next attempt. -/
theorem SpotifyAPI.getFrom_httpOther {α : Type} (outcome : Nat → AttemptOutcome α)
    (tries : Nat) (url : String) (attempt code : Nat) (reason : String)
    (h : attempt < tries) (ho : outcome attempt = .httpError code reason)
    (h401 : code ≠ 401) (h429 : code ≠ 429) :
    SpotifyAPI.getFrom outcome tries url attempt =
      ((SpotifyAPI.getFrom outcome tries url (attempt + 1)).1,
        .logHttpError code reason url ::
          (SpotifyAPI.linBackoff tries attempt ++ SpotifyAPI.retryLog tries attempt ++
            (SpotifyAPI.getFrom outcome tries url (attempt + 1)).2)) := by
  unfold SpotifyAPI.getFrom
  have h1 : tries - attempt = (tries - (attempt + 1)) + 1 := by omega
  rw [h1, SpotifyAPI.getAux, ho]
  simp [h401, h429]

/-- A network error logs, sleeps `2 * (attempt + 1)` when another attempt
remains, and continues with the next attempt. -/
theorem SpotifyAPI.getFrom_net {α : Type} (outcome : Nat → AttemptOutcome α)
    (tries : Nat) (url : String) (attempt : Nat) (reason : String)
    (h : attempt < tries) (ho : outcome attempt = .netError reason) :
    SpotifyAPI.getFrom outcome tries url attempt =
      ((SpotifyAPI.getFrom outcome tries url (attempt + 1)).1,
        .logNetError reason url ::
          (SpotifyAPI.linBackoff tries attempt ++ SpotifyAPI.retryLog tries attempt ++
            (SpotifyAPI.getFrom outcome tries url (attempt + 1)).2)) := by
  unfold SpotifyAPI.getFrom
  have h1 : tries - attempt = (tries - (attempt + 1)) + 1 := by omega
  rw [h1, SpotifyAPI.getAux, ho]

/-- A JSON decode error logs, sleeps the constant 2 seconds when another
attempt remains, and continues with the next attempt. -/
theorem SpotifyAPI.getFrom_json {α : Type} (outcome : Nat → AttemptOutcome α)
    (tries : Nat) (url : String) (attempt : Nat) (e : String)
    (h : attempt < tries) (ho : outcome attempt = .jsonError e) :
    SpotifyAPI.getFrom outcome tries url attempt =
      ((SpotifyAPI.getFrom outcome tries url (attempt + 1)).1,
        .logJsonError url e ::
          (SpotifyAPI.constBackoff tries attempt ++ SpotifyAPI.retryLog tries attempt ++
            (SpotifyAPI.getFrom outcome tries url (attempt + 1)).2)) := by
  unfold SpotifyAPI.getFrom
  have h1 : tries - attempt = (tries - (attempt + 1)) + 1 := by omega
  rw [h1, SpotifyAPI.getAux, ho]

/-- A retryable attempt (anything but success and 401) contributes a prefix
of events — none of them the authentication-failure log — and hands over to
the next attempt. -/
theorem SpotifyAPI.getFrom_retryable_step {α : Type}
    (outcome : Nat → AttemptOutcome α) (tries : Nat) (url : String)
    (attempt : Nat) (h : attempt < tries)
    (hr : (outcome attempt).retryable = true) :
    ∃ pre, SpotifyAPI.getFrom outcome tries url attempt =
        ((SpotifyAPI.getFrom outcome tries url (attempt + 1)).1,
          pre ++ (SpotifyAPI.getFrom outcome tries url (attempt + 1)).2) ∧
      Event.logAuthFailed ∉ pre := by
  cases ho : outcome attempt with
  | success b => rw [ho] at hr; simp [AttemptOutcome.retryable] at hr
  | httpError code reason =>
    rw [ho] at hr
    have h401 : code ≠ 401 := by
      simpa [AttemptOutcome.retryable] using hr
    by_cases h429 : code = 429
    · subst h429
      refine ⟨.logRateLimited :: .sleep (10 * (attempt + 1)) ::
        SpotifyAPI.retryLog tries attempt, ?_, ?_⟩
      · rw [SpotifyAPI.getFrom_429 outcome tries url attempt reason h ho]
        simp
      · simp only [SpotifyAPI.retryLog]
        split <;> simp
    · refine ⟨.logHttpError code reason url ::
        (SpotifyAPI.linBackoff tries attempt ++ SpotifyAPI.retryLog tries attempt), ?_, ?_⟩
      · rw [SpotifyAPI.getFrom_httpOther outcome tries url attempt code reason h ho h401 h429]
        simp
      · simp only [SpotifyAPI.linBackoff, SpotifyAPI.retryLog]
        split <;> simp
  | netError reason =>
    refine ⟨.logNetError reason url ::
      (SpotifyAPI.linBackoff tries attempt ++ SpotifyAPI.retryLog tries attempt), ?_, ?_⟩
    · rw [SpotifyAPI.getFrom_net outcome tries url attempt reason h ho]
      simp
    · simp only [SpotifyAPI.linBackoff, SpotifyAPI.retryLog]
      split <;> simp
  | jsonError e =>
    refine ⟨.logJsonError url e ::
      (SpotifyAPI.constBackoff tries attempt ++ SpotifyAPI.retryLog tries attempt), ?_, ?_⟩
    · rw [SpotifyAPI.getFrom_json outcome tries url attempt e h ho]
      simp
    · simp only [SpotifyAPI.constBackoff, SpotifyAPI.retryLog]
      split <;> simp
  | otherError e =>
    refine ⟨.logOtherError e url ::
      (SpotifyAPI.constBackoff tries attempt ++ SpotifyAPI.retryLog tries attempt), ?_, ?_⟩
    · unfold SpotifyAPI.getFrom
      have h1 : tries - attempt = (tries - (attempt + 1)) + 1 := by omega
      rw [h1, SpotifyAPI.getAux, ho]
      simp
    · simp only [SpotifyAPI.constBackoff, SpotifyAPI.retryLog]
      split <;> simp

/-- Chaining retryable attempts: if every attempt in `[attempt, attempt + k)`
is retryable, the run from `attempt` equals the run from `attempt + k`
prefixed by events that never include the authentication-failure log. -/
theorem SpotifyAPI.getFrom_reach {α : Type} (outcome : Nat → AttemptOutcome α)
    (tries : Nat) (url : String) :
    ∀ (k attempt : Nat), attempt + k ≤ tries →
      (∀ j, attempt ≤ j → j < attempt + k → (outcome j).retryable = true) →
      ∃ pre, SpotifyAPI.getFrom outcome tries url attempt =
          ((SpotifyAPI.getFrom outcome tries url (attempt + k)).1,
            pre ++ (SpotifyAPI.getFrom outcome tries url (attempt + k)).2) ∧
        Event.logAuthFailed ∉ pre := by
  intro k
  induction k with
  | zero => intro attempt _ _; exact ⟨[], by simp, by simp⟩
  | succ k ih =>
    intro attempt hle hr
    have h1 : attempt < tries := by omega
    obtain ⟨pre1, heq1, hp1⟩ := SpotifyAPI.getFrom_retryable_step outcome tries url
      attempt h1 (hr attempt (Nat.le_refl _) (by omega))
    obtain ⟨pre2, heq2, hp2⟩ := ih (attempt + 1) (by omega)
      (fun j hj1 hj2 => hr j (by omega) (by omega))
    have hfix : attempt + 1 + k = attempt + (k + 1) := by omega
    rw [hfix] at heq2
    refine ⟨pre1 ++ pre2, ?_, ?_⟩
    · rw [heq1, heq2]; simp
    · simp [hp1, hp2]

/-- C2: whatever the attempt number at which the 401 arrives (all earlier
attempts having failed retryably), `get` performs no further attempt after
it: the run ends in the auth-failure `sys.exit(1)`, the event trace records
exactly one authentication-failure log, and that log is the final event of
the whole run (nothing — no sleep, no retry notice, no further request — is
performed after it). -/
theorem SpotifyAPI.get_auth_error_fatal_no_retry {α : Type}
    (outcome : Nat → AttemptOutcome α) (tries : Nat) (url : String)
    (k : Nat) (reason : String)
    (hk : k < tries)
    (hprev : ∀ j, j < k → (outcome j).retryable = true)
    (h401 : outcome k = .httpError 401 reason) :
    (SpotifyAPI.get outcome tries url).1 = .exitAuth ∧
    (SpotifyAPI.get outcome tries url).2.count .logAuthFailed = 1 ∧
    (SpotifyAPI.get outcome tries url).2.getLast? = some .logAuthFailed := by
  obtain ⟨pre, heq, hp⟩ := SpotifyAPI.getFrom_reach outcome tries url k 0
    (by omega) (fun j _ hj => hprev j (by omega))
  rw [Nat.zero_add] at heq
  have h4 := SpotifyAPI.getFrom_401 outcome tries url k reason hk h401
  unfold SpotifyAPI.get
  rw [heq, h4]
  refine ⟨rfl, ?_, ?_⟩
  · simp [List.count_append, List.count_eq_zero.mpr hp, List.count_cons]
  · simp [List.getLast?_concat]

/-- Witness for C2: a network error then a 401 on the second attempt — the
run exits on the auth error with exactly one auth log, as the final event. -/
theorem SpotifyAPI.get_auth_error_fatal_no_retry_witness :
    (SpotifyAPI.get (fun n => if n = 0 then (AttemptOutcome.netError "refused" : AttemptOutcome Nat)
        else .httpError 401 "Unauthorized") 3 "me").1 = .exitAuth ∧
    (SpotifyAPI.get (fun n => if n = 0 then (AttemptOutcome.netError "refused" : AttemptOutcome Nat)
        else .httpError 401 "Unauthorized") 3 "me").2.count .logAuthFailed = 1 ∧
    (SpotifyAPI.get (fun n => if n = 0 then (AttemptOutcome.netError "refused" : AttemptOutcome Nat)
        else .httpError 401 "Unauthorized") 3 "me").2.getLast? = some .logAuthFailed :=
  SpotifyAPI.get_auth_error_fatal_no_retry _ 3 "me" 1 "Unauthorized"
    (by decide) (by decide) (by decide)

/-- C4 counterexample: with a malformed-JSON body on every attempt and
`tries = 3`, the second attempt (1-indexed n = 2, not the last) sleeps the
constant 2 seconds, not `2 * n = 4`: the full trace contains `sleep 2` twice
and no `sleep 4`. -/
theorem SpotifyAPI.json_backoff_not_linear_cex :
    (SpotifyAPI.get (fun _ => (AttemptOutcome.jsonError "e" : AttemptOutcome Nat)) 3 "u").2 =
      [.logJsonError "u" "e", .sleep 2, .logRetry 2 3,
       .logJsonError "u" "e", .sleep 2, .logRetry 3 3,
       .logJsonError "u" "e", .logFailedAfter 3 "u"] ∧
    Event.sleep 4 ∉
      (SpotifyAPI.get (fun _ => (AttemptOutcome.jsonError "e" : AttemptOutcome Nat)) 3 "u").2 := by
  constructor <;> decide

/-- C4 amended: on a non-last attempt, an HTTP error other than 401/429 and a
network error sleep `2 * (attempt + 1)` seconds and retry; a malformed JSON
body sleeps a constant 2 seconds (not `2 * (attempt + 1)`) and retries. -/
theorem SpotifyAPI.transient_backoff_amended {α : Type}
    (outcome : Nat → AttemptOutcome α) (tries : Nat) (url : String)
    (attempt code : Nat) (reason e : String)
    (h : attempt < tries - 1) :
    (outcome attempt = .httpError code reason → code ≠ 401 → code ≠ 429 →
      SpotifyAPI.getFrom outcome tries url attempt =
        ((SpotifyAPI.getFrom outcome tries url (attempt + 1)).1,
          .logHttpError code reason url :: .sleep (2 * (attempt + 1)) ::
            .logRetry (attempt + 2) tries ::
              (SpotifyAPI.getFrom outcome tries url (attempt + 1)).2)) ∧
    (outcome attempt = .netError reason →
      SpotifyAPI.getFrom outcome tries url attempt =
        ((SpotifyAPI.getFrom outcome tries url (attempt + 1)).1,
          .logNetError reason url :: .sleep (2 * (attempt + 1)) ::
            .logRetry (attempt + 2) tries ::
              (SpotifyAPI.getFrom outcome tries url (attempt + 1)).2)) ∧
    (outcome attempt = .jsonError e →
      SpotifyAPI.getFrom outcome tries url attempt =
        ((SpotifyAPI.getFrom outcome tries url (attempt + 1)).1,
          .logJsonError url e :: .sleep 2 ::
            .logRetry (attempt + 2) tries ::
              (SpotifyAPI.getFrom outcome tries url (attempt + 1)).2)) := by
  have h' : attempt < tries := by omega
  refine ⟨fun ho h401 h429 => ?_, fun ho => ?_, fun ho => ?_⟩
  · rw [SpotifyAPI.getFrom_httpOther outcome tries url attempt code reason h' ho h401 h429]
    simp [SpotifyAPI.linBackoff, SpotifyAPI.retryLog, h]
  · rw [SpotifyAPI.getFrom_net outcome tries url attempt reason h' ho]
    simp [SpotifyAPI.linBackoff, SpotifyAPI.retryLog, h]
  · rw [SpotifyAPI.getFrom_json outcome tries url attempt e h' ho]
    simp [SpotifyAPI.constBackoff, SpotifyAPI.retryLog, h]

/-- Witness for the amended C4: a network error on the first of three
attempts sleeps 2 seconds, logs the retry, and the next attempt succeeds. -/
theorem SpotifyAPI.transient_backoff_amended_witness :
    SpotifyAPI.getFrom (fun n => if n = 0 then (AttemptOutcome.netError "refused" : AttemptOutcome Nat)
        else .success 5) 3 "u" 0 =
      (.ok 5, [.logNetError "refused" "u", .sleep 2, .logRetry 2 3]) := by
  have h := (SpotifyAPI.transient_backoff_amended
    (fun n => if n = 0 then (AttemptOutcome.netError "refused" : AttemptOutcome Nat) else .success 5)
    3 "u" 0 500 "refused" "e" (by decide)).2.1 (by decide)
  rw [h]
  decide

/-- C5: a 429 on any attempt with a following attempt sleeps
`10 * (attempt + 1)` seconds (1-indexed attempt number) before the retry
notice and the retry; when that next attempt returns a valid success body,
`get` returns exactly that payload. -/
theorem SpotifyAPI.rate_limited_backoff_then_success {α : Type}
    (outcome : Nat → AttemptOutcome α) (tries : Nat) (url : String)
    (attempt : Nat) (b : α) (reason : String)
    (h1 : attempt + 1 < tries)
    (h429 : outcome attempt = .httpError 429 reason)
    (hs : outcome (attempt + 1) = .success b) :
    SpotifyAPI.getFrom outcome tries url attempt =
      (.ok b, [.logRateLimited, .sleep (10 * (attempt + 1)),
        .logRetry (attempt + 2) tries]) := by
  have h : attempt < tries := by omega
  have h2 : attempt < tries - 1 := by omega
  rw [SpotifyAPI.getFrom_429 outcome tries url attempt reason h h429,
      SpotifyAPI.getFrom_success outcome tries url (attempt + 1) b h1 hs]
  simp [SpotifyAPI.retryLog, h2]

/-- Witness for C5: a 429 on the first attempt, success on the second —
a 10-second sleep, then the body `7` is returned. -/
theorem SpotifyAPI.rate_limited_backoff_then_success_witness :
    SpotifyAPI.getFrom (fun n => if n = 0 then (AttemptOutcome.httpError 429 "rl" : AttemptOutcome Nat)
        else .success 7) 3 "u" 0 =
      (.ok 7, [.logRateLimited, .sleep 10, .logRetry 2 3]) :=
  SpotifyAPI.rate_limited_backoff_then_success _ 3 "u" 0 7 "rl"
    (by decide) (by decide) (by decide)

/-- C8 counterexample: two exhausted runs whose last errors differ — every
attempt an HTTP 500 in one, every attempt a network error in the other —
end with the identical terminal diagnostic, which carries only the attempt
count and the URL. The terminal diagnostic therefore does not report the
last error encountered (the last per-attempt log, at index 6, does differ). -/
theorem SpotifyAPI.exhausted_diagnostic_lacks_error_cex :
    (SpotifyAPI.get (fun _ => (AttemptOutcome.httpError 500 "Internal Server Error" : AttemptOutcome Nat)) 3 "me").2.getLast?
      = some (.logFailedAfter 3 "me") ∧
    (SpotifyAPI.get (fun _ => (AttemptOutcome.netError "refused" : AttemptOutcome Nat)) 3 "me").2.getLast?
      = some (.logFailedAfter 3 "me") ∧
    (SpotifyAPI.get (fun _ => (AttemptOutcome.httpError 500 "Internal Server Error" : AttemptOutcome Nat)) 3 "me").2.get? 6
      = some (.logHttpError 500 "Internal Server Error" "me") ∧
    (SpotifyAPI.get (fun _ => (AttemptOutcome.netError "refused" : AttemptOutcome Nat)) 3 "me").2.get? 6
      = some (.logNetError "refused" "me") ∧
    (SpotifyAPI.get (fun _ => (AttemptOutcome.httpError 500 "Internal Server Error" : AttemptOutcome Nat)) 3 "me").1
      = .exitExhausted := by
  refine ⟨?_, ?_, ?_, ?_, ?_⟩ <;> decide

/-- C8 amended: a request on which every attempt fails retryably exhausts the
budget and fails fatally; the terminal diagnostic reports the attempt count
and the offending URL (the last error itself is reported by the per-attempt
log line immediately preceding the terminal diagnostic, not by the terminal
diagnostic). -/
theorem SpotifyAPI.exhausted_fatal_diagnostic_amended {α : Type}
    (outcome : Nat → AttemptOutcome α) (tries : Nat) (url : String)
    (hall : ∀ j, j < tries → (outcome j).retryable = true) :
    (SpotifyAPI.get outcome tries url).1 = .exitExhausted ∧
    (SpotifyAPI.get outcome tries url).2.getLast? =
      some (.logFailedAfter tries url) := by
  obtain ⟨pre, heq, _⟩ := SpotifyAPI.getFrom_reach outcome tries url tries 0
    (by omega) (fun j _ hj => hall j (by omega))
  rw [Nat.zero_add] at heq
  have hx := SpotifyAPI.getFrom_exhausted outcome tries url tries (Nat.le_refl _)
  unfold SpotifyAPI.get
  rw [heq, hx]
  exact ⟨rfl, by simp [List.getLast?_concat]⟩

/-- Witness for the amended C8: three 503s exhaust the budget; the run exits
fatally with the terminal diagnostic naming 3 attempts and the URL. -/
theorem SpotifyAPI.exhausted_fatal_diagnostic_amended_witness :
    (SpotifyAPI.get (fun _ => (AttemptOutcome.httpError 503 "Service Unavailable" : AttemptOutcome Nat)) 3 "pl").1
      = .exitExhausted ∧
    (SpotifyAPI.get (fun _ => (AttemptOutcome.httpError 503 "Service Unavailable" : AttemptOutcome Nat)) 3 "pl").2.getLast?
      = some (.logFailedAfter 3 "pl") :=
  SpotifyAPI.exhausted_fatal_diagnostic_amended _ 3 "pl" (by decide)

/-- The scan for `access_token=` succeeds exactly when that literal occurs as
a contiguous substring of the path (the capture group `[^&]*` itself always
matches, possibly emptily). -/
theorem scanToken_isSome_iff : ∀ l : List Char,
    (scanToken l).isSome = true ↔ accessTokenPat <:+: l := by
  intro l
  induction l with
  | nil =>
    rw [List.infix_nil]
    simp only [scanToken, Option.isSome_none, Bool.false_eq_true, false_iff]
    decide
  | cons c rest ih =>
    by_cases hp : accessTokenPat.isPrefixOf (c :: rest) = true
    · simp only [scanToken, hp, if_true, Option.isSome_some, true_iff]
      exact ( List.isPrefixOf_iff_prefix.mp hp).isInfix
    · rw [List.infix_cons_iff]
      simp only [scanToken, hp, if_false, Bool.false_eq_true]
      rw [ih]
      constructor
      · exact fun h => Or.inr h
      · rintro (h | h)
        · exact absurd ( List.isPrefixOf_iff_prefix.mpr h) hp
        · exact h

/-- A path that starts with `/token?` does not start with `/redirect`, so the
`do_GET` dispatch reaches the `/token?` arm. -/
theorem tokenPath_not_redirect (p : List Char)
    (h : ("/token?".data).isPrefixOf p = true) :
    ("/redirect".data).isPrefixOf p = false := by
  have hd1 : "/token?".data = ['/', 't', 'o', 'k', 'e', 'n', '?'] := rfl
  have hd2 : "/redirect".data = ['/', 'r', 'e', 'd', 'i', 'r', 'e', 'c', 't'] := rfl
  rw [hd1] at h
  rw [hd2]
  match p with
  | [] => simp [List.isPrefixOf] at h
  | [c1] => simp [List.isPrefixOf] at h
  | c1 :: c2 :: p' =>
    simp only [List.isPrefixOf, Bool.and_eq_true, beq_iff_eq] at h ⊢
    obtain ⟨-, h2, -⟩ := h
    simp only [Bool.and_eq_false_iff]
    right
    left
    rw [← h2]
    decide

/-- C6: a `/token` GET whose query has no parseable `access_token` (the
pattern search fails) answers with the bad-request status (after the
already-written 200 page) and does not advance the state machine: the server
stays `listening`, and the `authorize` loop simply moves on to the next
inbound event rather than terminating. -/
theorem token_bad_request_keeps_listening (path : List Char)
    (h1 : ("/token?".data).isPrefixOf path = true)
    (h2 : scanToken path = none) :
    serverStep .listening path = (.listening, [.okTokenPage, .err400]) ∧
    (∀ rest, authorize (.request path :: rest) = authorize rest) := by
  have hr := tokenPath_not_redirect path h1
  have hdo : do_GET path = ([.okTokenPage, .err400], none) := by
    simp [do_GET, hr, h1, h2]
  constructor
  · simp [serverStep, hdo]
  · intro rest
    simp [authorize, hdo]

/-- Witness for C6: `/token?foo=1` has no `access_token=`; the server answers
400 and keeps listening. -/
theorem token_bad_request_keeps_listening_witness :
    serverStep .listening "/token?foo=1".data =
      (.listening, [.okTokenPage, .err400]) ∧
    authorize [.request "/token?foo=1".data] = authorize [] :=
  ⟨(token_bad_request_keeps_listening "/token?foo=1".data (by decide) (by decide)).1,
   (token_bad_request_keeps_listening "/token?foo=1".data (by decide) (by decide)).2 []⟩

/-- C7: `/redirect` yields the script-redirect page and stays listening; a
subsequent `/token?access_token=XYZ` transitions to the terminal `captured`
state with token `XYZ`; a captured server handles no further requests; every
exit of the `authorize` loop — capture or interruption — releases the socket
(the `finally` clause); any other path gets 404 and does not advance the
state machine. -/
theorem capture_flow_and_shutdown :
    (∀ path, ("/redirect".data).isPrefixOf path = true →
      serverStep .listening path = (.listening, [.okRedirectScript])) ∧
    serverStep .listening "/token?access_token=XYZ".data =
      (.captured "XYZ".data, [.okTokenPage]) ∧
    (∀ t path, serverStep (.captured t) path = (.captured t, [])) ∧
    (∀ events r, authorize events = some r → r.socketClosed = true) ∧
    (∀ path, ("/redirect".data).isPrefixOf path = false →
      ("/token?".data).isPrefixOf path = false →
      serverStep .listening path = (.listening, [.err404])) := by
  refine ⟨?_, by decide, ?_, ?_, ?_⟩
  · intro path hp
    simp [serverStep, do_GET, hp]
  · intro t path
    simp [serverStep]
  · intro events
    induction events with
    | nil => intro r h; simp [authorize] at h
    | cons e rest ih =>
      intro r h
      cases e with
      | interrupt =>
        simp only [authorize, Option.some.injEq] at h
        rw [← h]
      | request p =>
        rcases hdg : do_GET p with ⟨resp, tok⟩
        cases tok with
        | some t =>
          simp only [authorize, hdg, Option.some.injEq] at h
          rw [← h]
        | none =>
          simp only [authorize, hdg] at h
          exact ih r h
  · intro path hr ht
    simp [serverStep, do_GET, hr, ht]

/-- Witness for C7: the three request shapes at concrete paths, and a
captured run of the `authorize` loop that closed its socket. -/
theorem capture_flow_and_shutdown_witness :
    serverStep .listening "/redirect".data = (.listening, [.okRedirectScript]) ∧
    serverStep (.captured "XYZ".data) "/redirect".data = (.captured "XYZ".data, []) ∧
    serverStep .listening "/other".data = (.listening, [.err404]) ∧
    (authorize [.request "/redirect".data,
      .request "/token?access_token=XYZ".data]).map AuthResult.socketClosed = some true := by
  refine ⟨capture_flow_and_shutdown.1 _ (by decide),
    capture_flow_and_shutdown.2.2.1 _ _,
    capture_flow_and_shutdown.2.2.2.2 _ (by decide) (by decide), ?_⟩
  have h : authorize [.request "/redirect".data,
      .request "/token?access_token=XYZ".data] = some ⟨.captured "XYZ".data, true⟩ := by
    decide
  have hs := capture_flow_and_shutdown.2.2.2.1 _ _ h
  rw [h]
  simp only [Option.map, hs]

/-- C10: on the path `/token?access_token=` (key present, empty value) the
pattern `access_token=([^&]*)` matches the empty string, so the server
captures the empty-string token instead of answering bad-request; within
`/token?` paths, the bad-request branch is reached exactly when the literal
substring `access_token=` is absent from the path. -/
theorem empty_access_token_captured :
    serverStep .listening "/token?access_token=".data =
      (.captured [], [.okTokenPage]) ∧
    (∀ path, ("/token?".data).isPrefixOf path = true →
      (HttpResponse.err400 ∈ (do_GET path).1 ↔ ¬ accessTokenPat <:+: path)) := by
  constructor
  · decide
  · intro path h1
    have hr := tokenPath_not_redirect path h1
    rw [← scanToken_isSome_iff]
    cases hs : scanToken path with
    | none => simp [do_GET, hr, h1, hs]
    | some t => simp [do_GET, hr, h1, hs]

/-- Witness for C10: `/token?x=1` (no `access_token=` substring) does get the
bad-request response, and the empty-value capture is as stated. -/
theorem empty_access_token_captured_witness :
    HttpResponse.err400 ∈ (do_GET "/token?x=1".data).1 ∧
    serverStep .listening "/token?access_token=".data =
      (.captured [], [.okTokenPage]) :=
  ⟨(empty_access_token_captured.2 "/token?x=1".data (by decide)).mpr (by decide),
   empty_access_token_captured.1⟩

/-- A non-fatal resolution returns the playlist in its `resolve1` shape,
with one error log exactly when the resolution failed. -/
theorem load_playlist_tracks_nonfatal (resolver : Playlist → ResolveOutcome)
    (p : Playlist) (h : resolver p ≠ .fatalAuth) :
    ∃ l, load_playlist_tracks resolver p = some (resolve1 resolver p, l) ∧
      l.length = (if (resolver p).isErr = true then 1 else 0) := by
  cases hr : resolver p with
  | ok items => exact ⟨[], by simp [load_playlist_tracks, resolve1, hr, ResolveOutcome.isErr]⟩
  | err m =>
    exact ⟨["Error loading playlist " ++ p.name ++ ": " ++ m],
      by simp [load_playlist_tracks, resolve1, hr, ResolveOutcome.isErr]⟩
  | fatalAuth => exact absurd hr h

/-- Batch invariant: with in-range completion order and no fatal auth error,
the batch completes; each processed index holds its playlist's `resolve1`
image, unprocessed indices are untouched, and the error-log count equals the
number of failing completions. -/
theorem runBatchAux_spec (resolver : Playlist → ResolveOutcome) (ps : List Playlist) :
    ∀ (order : List Nat) (acc : List Playlist) (logs : List String),
      (∀ i ∈ order, i < ps.length) →
      (∀ p ∈ ps, resolver p ≠ .fatalAuth) →
      acc.length = ps.length →
      ∃ res logs2,
        runBatchAux resolver ps order acc logs = some (res, logs ++ logs2) ∧
        res.length = ps.length ∧
        (∀ j, res.get? j =
          if j ∈ order then (ps.get? j).map (resolve1 resolver) else acc.get? j) ∧
        logs2.length = (order.countP fun i =>
          ((ps.get? i).elim false fun p => (resolver p).isErr)) := by
  intro order
  induction order with
  | nil =>
    intro acc logs _ _ hlen
    exact ⟨acc, [], by simp [runBatchAux], hlen, by simp, by simp⟩
  | cons i rest ih =>
    intro acc logs horder hnofatal hlen
    have hi : i < ps.length := horder i (List.mem_cons_self i rest)
    have hp : ps.get? i = some (ps.get ⟨i, hi⟩) := List.get?_eq_get hi
    have hnf := hnofatal _ (List.get_mem ps i hi)
    obtain ⟨l, hload, hllen⟩ := load_playlist_tracks_nonfatal resolver _ hnf
    obtain ⟨res, logs2, hrun, hreslen, hget, hcount⟩ :=
      ih (acc.set i (resolve1 resolver (ps.get ⟨i, hi⟩))) (logs ++ l)
        (fun j hj => horder j (List.mem_cons_of_mem i hj)) hnofatal
        (by rw [List.length_set]; exact hlen)
    refine ⟨res, l ++ logs2, ?_, hreslen, ?_, ?_⟩
    · simp only [runBatchAux, hp, hload]
      rw [hrun, List.append_assoc]
    · intro j
      rw [hget j]
      by_cases hj : j ∈ rest
      · simp [hj, List.mem_cons]
      · by_cases hji : j = i
        · subst hji
          simp only [hj, if_false, List.mem_cons, true_or, if_true]
          rw [List.get?_set_eq_of_lt _ (by omega), hp]
          simp
        · simp only [hj, if_false, List.mem_cons, hji, false_or]
          exact List.get?_set_ne _ _ (fun hc => hji hc.symm)
    · have hcond : ((ps.get? i).elim false fun p => (resolver p).isErr) =
          (resolver (ps.get ⟨i, hi⟩)).isErr := by rw [hp]; rfl
      rw [List.length_append, hcount, List.countP_cons]
      simp only [hcond]
      rw [hllen]
      omega

/-- Counting playlist indices in `range` by a predicate on the playlist at
that index is counting the playlists themselves. -/
theorem countP_range_get (ps : List Playlist) (f : Playlist → Bool) :
    ((List.range ps.length).countP fun i => ((ps.get? i).elim false f)) =
      ps.countP f := by
  induction ps with
  | nil => simp
  | cons a tl ih =>
    rw [List.length_cons, List.range_succ_eq_map, List.countP_cons,
      List.countP_map, List.countP_cons]
    have h0 : (((a :: tl).get? 0).elim false f) = f a := by simp
    have hcomp : ((fun i => (((a :: tl).get? i).elim false f)) ∘ Nat.succ) =
        fun i => ((tl.get? i).elim false f) := by
      funext i
      simp [Function.comp]
    rw [h0, hcomp, ih]

/-- C3: with any completion order that is a permutation of the submitted
indices and no always-fatal auth error, the batch completes without aborting:
the resulting sequence is exactly the input sequence mapped pointwise by a
single independent resolution — original input order, independent of
completion order — failing playlists are returned with their stub `tracks`
untouched, and exactly one error line is logged per failing playlist. -/
theorem coordinator_isolates_failures (resolver : Playlist → ResolveOutcome)
    (ps : List Playlist) (order : List Nat)
    (hperm : order.Perm (List.range ps.length))
    (hnofatal : ∀ p ∈ ps, resolver p ≠ .fatalAuth) :
    ∃ logs, runBatch resolver ps order = some (ps.map (resolve1 resolver), logs) ∧
      logs.length = ps.countP (fun p => (resolver p).isErr) ∧
      (∀ p ∈ ps, (resolver p).isErr = true → resolve1 resolver p = p) := by
  have horder : ∀ i ∈ order, i < ps.length := by
    intro i hi
    have := hperm.mem_iff.mp hi
    simpa [List.mem_range] using this
  obtain ⟨res, logs2, hrun, hreslen, hget, hcount⟩ :=
    runBatchAux_spec resolver ps order ps [] horder hnofatal rfl
  have hres : res = ps.map (resolve1 resolver) := by
    rw [List.ext_get?_iff]
    intro j
    rw [hget j]
    by_cases hj : j ∈ order
    · rw [if_pos hj, List.get?_map]
    · rw [if_neg hj]
      have hj' : ¬ j < ps.length :=
        fun hlt => hj (hperm.mem_iff.mpr (List.mem_range.mpr hlt))
      have hn1 : ps.get? j = none := List.get?_eq_none.mpr (by omega)
      have hn2 : (ps.map (resolve1 resolver)).get? j = none :=
        List.get?_eq_none.mpr (by rw [List.length_map]; omega)
      rw [hn1, hn2]
  have hcount2 : (order.countP fun i =>
      ((ps.get? i).elim false fun p => (resolver p).isErr)) =
      ps.countP fun p => (resolver p).isErr := by
    rw [hperm.countP_eq, countP_range_get]
  refine ⟨logs2, ?_, ?_, ?_⟩
  · unfold runBatch
    rw [hrun, hres]
    simp
  · rw [hcount, hcount2]
  · intro p _ herr
    cases hr : resolver p with
    | ok items => rw [hr] at herr; simp [ResolveOutcome.isErr] at herr
    | err m => simp [resolve1, hr]
    | fatalAuth => rw [hr] at herr; simp [ResolveOutcome.isErr] at herr

/-- Witness for C3: three playlists, the middle one failing, completion order
`[2, 0, 1]` — all three come back in input order, the failing one still a
stub, one error log. -/
theorem coordinator_isolates_failures_witness :
    ∃ logs, runBatch sampleResolver samplePlaylists [2, 0, 1] =
        some (samplePlaylists.map (resolve1 sampleResolver), logs) ∧
      logs.length = samplePlaylists.countP (fun p => (sampleResolver p).isErr) ∧
      (∀ p ∈ samplePlaylists, (sampleResolver p).isErr = true →
        resolve1 sampleResolver p = p) :=
  coordinator_isolates_failures sampleResolver samplePlaylists [2, 0, 1]
    (by decide) (by decide)

/-- The Playlists section itself never emits a Liked-Albums/Top-Artists/
Top-Tracks section header. -/
theorem playlistLines_no_header (p : WPlaylist) :
    ∀ l ∈ playlistLines p, l.isNestedSectionHeader = false := by
  intro l hl
  simp only [playlistLines, List.mem_cons, List.mem_append, List.mem_filterMap,
    List.not_mem_nil, or_false] at hl
  rcases hl with (h | ⟨t, -, ht⟩) | h
  · subst h; rfl
  · cases t with
    | none => simp at ht
    | some tr =>
      have hv : TxtLine.trackLine tr.name (String.intercalate ", " tr.artists)
          tr.album tr.uri tr.releaseDate = l := by simpa using ht
      subst hv; rfl
  · subst h; rfl

/-- C9: the text writer emits the "Liked Albums", "Top Artists" and
"Top Tracks" sections only inside the branch taken when the liked-albums
sequence is non-empty: with zero liked albums none of the three section
headers appears in the output — even when top artists and top tracks are
non-empty — while with at least one liked album the non-empty top sections do
appear. -/
theorem txt_top_sections_only_with_liked_albums
    (pls : List WPlaylist) (las : List Album) (tA : List Artist)
    (tT : List TopTrack) (tr : String) :
    (las = [] → ∀ l ∈ writeTxt pls las tA tT tr, l.isNestedSectionHeader = false) ∧
    (las ≠ [] → tA ≠ [] → TxtLine.topArtistsHeader tr ∈ writeTxt pls las tA tT tr) ∧
    (las ≠ [] → tT ≠ [] → TxtLine.topTracksHeader tr ∈ writeTxt pls las tA tT tr) := by
  refine ⟨?_, ?_, ?_⟩
  · intro hlas l hl
    subst hlas
    simp only [writeTxt, List.length_nil, gt_iff_lt, Nat.lt_irrefl, if_false,
      List.append_nil, List.mem_cons] at hl
    rcases hl with h | h
    · subst h; rfl
    · obtain ⟨lines, hlines, hmem⟩ := List.mem_flatten.mp h
      obtain ⟨p, -, rfl⟩ := List.mem_map.mp hlines
      exact playlistLines_no_header p l hmem
  · intro hlas htA
    have h1 : las.length > 0 := List.length_pos.mpr hlas
    have h2 : tA.length > 0 := List.length_pos.mpr htA
    simp [writeTxt, h1, h2]
  · intro hlas htT
    have h1 : las.length > 0 := List.length_pos.mpr hlas
    have h2 : tT.length > 0 := List.length_pos.mpr htT
    simp [writeTxt, h1, h2]

/-- Witness for C9: with no liked albums but a non-empty top-artists list,
neither the Liked Albums nor the Top Artists header is written; adding one
liked album makes the Top Artists header appear. -/
theorem txt_top_sections_only_with_liked_albums_witness :
    TxtLine.likedAlbumsHeader ∉ writeTxt [] [] [⟨"art", ["g"], 5, "ua"⟩] [] "m" ∧
    TxtLine.topArtistsHeader "m" ∉ writeTxt [] [] [⟨"art", ["g"], 5, "ua"⟩] [] "m" ∧
    TxtLine.topArtistsHeader "m" ∈
      writeTxt [] [⟨"ua", "an", ["x"], "rd"⟩] [⟨"art", ["g"], 5, "ua"⟩] [] "m" := by
  refine ⟨?_, ?_, ?_⟩
  · intro h
    have := (txt_top_sections_only_with_liked_albums [] [] [⟨"art", ["g"], 5, "ua"⟩]
      [] "m").1 rfl _ h
    simp [TxtLine.isNestedSectionHeader] at this
  · intro h
    have := (txt_top_sections_only_with_liked_albums [] [] [⟨"art", ["g"], 5, "ua"⟩]
      [] "m").1 rfl _ h
    simp [TxtLine.isNestedSectionHeader] at this
  · exact (txt_top_sections_only_with_liked_albums [] [⟨"ua", "an", ["x"], "rd"⟩]
      [⟨"art", ["g"], 5, "ua"⟩] [] "m").2.1 (by simp) (by simp)
